import Mathlib

/-!
Shallow embedding of the MMR (Merkle Mountain Range) proof verifier from
`src/c/ckb_mmr.h`, together with theorems checking the natural-language
specification against it.

Modelling conventions:
* byte buffers are `List Nat` (each element a byte value);
* a node (`mmr_node_t`) is modelled by its payload bytes (`List Nat`);
  its `length` field is the list length;
* `uint64_t` arithmetic is `Nat` with explicit `% 2 ^ 64` where the C code
  can wrap; `uint32_t` subtractions in the default readers are `Nat`
  subtraction, which agrees with C on every state the readers produce
  (the cursor never moves past the end of the buffer);
* the two merge hooks (`MMR_MERGE`, `MMR_MERGE_PEAKS`) are explicit
  function parameters, mirroring the compile-time macro hooks of the C
  header;
* every loop is expressed by structural recursion on an explicit bound
  so that all definitions compute by kernel reduction; each bound is
  justified where it is introduced.
-/

/-! ### Error codes (`enum MMRErrorCode`) -/

def ERROR_INVALID_STACK : Nat := 80

def ERROR_INVALID_COMMAND : Nat := 81

def ERROR_INVALID_PROOF : Nat := 82

def ERROR_PROOF_EOF : Nat := 83

def ERROR_LEAF_EOF : Nat := 84

def ERROR_NO_MORE_LEAFS : Nat := 85

def ERROR_NO_MORE_COMMANDS : Nat := 86

def ERROR_NODE_EOF : Nat := 87

/-- `MMR_STACK_SIZE` default. -/
def MMR_STACK_SIZE : Nat := 257

/-- Modulus of `uint64_t` arithmetic. -/
def U64_MOD : Nat := 2 ^ 64

/-! ### Default buffer readers -/

/-- Little-endian `uint16_t` at offset `i` (used for node length fields). -/
def readU16LE (buf : List Nat) (i : Nat) : Nat :=
  buf.getD i 0 + 256 * buf.getD (i + 1) 0

/-- Little-endian `uint64_t` at offset `i` (used for leaf position fields). -/
def readU64LE (buf : List Nat) (i : Nat) : Nat :=
  buf.getD i 0 + 256 * (buf.getD (i + 1) 0 + 256 * (buf.getD (i + 2) 0 +
    256 * (buf.getD (i + 3) 0 + 256 * (buf.getD (i + 4) 0 + 256 * (buf.getD (i + 5) 0 +
    256 * (buf.getD (i + 6) 0 + 256 * buf.getD (i + 7) 0))))))

/-- `_mmr_default_buffer_read_node`: reads a `u16`-length-prefixed node at
cursor `i`; on success returns the payload bytes and the new cursor. -/
def default_buffer_read_node (buf : List Nat) (i : Nat) :
    Except Nat (List Nat × Nat) :=
  if buf.length - i < 2 then Except.error ERROR_NODE_EOF
  else
    let len := readU16LE buf i
    if buf.length - i - 2 < len then Except.error ERROR_NODE_EOF
    else Except.ok ((buf.drop (i + 2)).take len, i + 2 + len)

/-- `_mmr_default_command_read`: one byte at cursor `i`, or `NoMoreCommands`. -/
def default_command_read (buf : List Nat) (i : Nat) : Except Nat (Nat × Nat) :=
  if i ≥ buf.length then Except.error ERROR_NO_MORE_COMMANDS
  else Except.ok (buf.getD i 0, i + 1)

/-- `_mmr_default_leaf_iter_read`: a `(u64 position, length-prefixed node)`
record at cursor `i`; on success returns `(node, position, new cursor)`. -/
def default_leaf_iter_read (buf : List Nat) (i : Nat) :
    Except Nat (List Nat × Nat × Nat) :=
  if i ≥ buf.length then Except.error ERROR_NO_MORE_LEAFS
  else if buf.length - i < 8 then Except.error ERROR_LEAF_EOF
  else
    match default_buffer_read_node buf (i + 8) with
    | Except.error e => Except.error e
    | Except.ok (nd, j) => Except.ok (nd, readU64LE buf i, j)

/-- `true` exactly on `Except.ok`. -/
def exceptOk {α : Type} (r : Except Nat α) : Bool :=
  match r with
  | Except.ok _ => true
  | Except.error _ => false

instance {ε α : Type} [DecidableEq ε] [DecidableEq α] : DecidableEq (Except ε α) := fun x y =>
  match x, y with
  | Except.ok a, Except.ok b =>
    if h : a = b then Decidable.isTrue (by rw [h]) else Decidable.isFalse (by simp [h])
  | Except.error a, Except.error b =>
    if h : a = b then Decidable.isTrue (by rw [h]) else Decidable.isFalse (by simp [h])
  | Except.ok _, Except.error _ => Decidable.isFalse (by simp)
  | Except.error _, Except.ok _ => Decidable.isFalse (by simp)

/-! ### Bit helpers (64-bit popcount / clz, as used by the header) -/

/-- Popcount restricted to `width` low bits (structural fuel = bit width). -/
def popcountAux : Nat → Nat → Nat
  | 0, _ => 0
  | w + 1, n => n % 2 + popcountAux w (n / 2)

/-- `__builtin_popcountl` on a `uint64_t` value. -/
def count_ones_u64 (n : Nat) : Nat := popcountAux 64 n

/-- `_mmr_count_zeros_u64`: `64 - popcount`. -/
def count_zeros_u64 (n : Nat) : Nat := 64 - count_ones_u64 n

/-- Bit length restricted to `width` low bits (structural fuel = bit width). -/
def bitlenAux : Nat → Nat → Nat
  | 0, _ => 0
  | w + 1, n => if n = 0 then 0 else bitlenAux w (n / 2) + 1

/-- Bit length of a `uint64_t` value (`64 - clz` for nonzero input). -/
def bitlen_u64 (n : Nat) : Nat := bitlenAux 64 n

/-- `_mmr_leading_zeros_u64` (C calls it only on nonzero values). -/
def leading_zeros_u64 (n : Nat) : Nat := 64 - bitlen_u64 n

/-- `_mmr_all_ones`: `num != 0 && count_zeros(num) == leading_zeros(num)`. -/
def all_ones (num : Nat) : Bool :=
  num != 0 && (count_zeros_u64 num == leading_zeros_u64 num)

/-- `_mmr_jump_left`: subtract `2 ^ (bitlen - 1) - 1` (C calls it only on
nonzero values, where the `uint64_t` subtraction cannot wrap). -/
def jump_left (pos : Nat) : Nat :=
  pos - ((1 <<< (bitlen_u64 pos - 1)) - 1)

/-- Loop of `_mmr_pos_height_in_tree`.  Structural fuel: starting from a
value below `2 ^ 64`, `jump_left` lowers the bit length at least every
second step, so at most `2 * 64 + 1` iterations ever run; 128 is enough
and the fuel-exhaustion branch (returning the same expression as the
all-ones exit) is never taken. -/
def heightLoopAux : Nat → Nat → Nat
  | 0, p => bitlen_u64 p - 1
  | f + 1, p => if all_ones p then bitlen_u64 p - 1 else heightLoopAux f (jump_left p)

/-- `_mmr_pos_height_in_tree` (the argument increment `pos += 1` wraps in
`uint64_t`). -/
def pos_height_in_tree (pos : Nat) : Nat :=
  heightLoopAux 128 ((pos + 1) % U64_MOD)

/-! ### Peak arithmetic -/

/-- `_mmr_parent_offset`: `2 << height` in 64-bit arithmetic. -/
def parent_offset (height : Nat) : Nat := (2 <<< height) % U64_MOD

/-- `_mmr_sibling_offset`: `(2 << height) - 1` in 64-bit arithmetic. -/
def sibling_offset (height : Nat) : Nat := ((2 <<< height) - 1) % U64_MOD

/-- `_mmr_get_peak_pos_by_height`: `(1 << (height + 1)) - 2`.  No modulus is
needed: for every `mmr_size < 2 ^ 64` the `left_peak` loop below only
evaluates this at heights where the C shift does not overflow. -/
def get_peak_pos_by_height (height : Nat) : Nat := (1 <<< (height + 1)) - 2

/-- `_mmr_peak_t`. -/
structure PeakInfo where
  pos : Nat
  height : Nat
  present : Bool
deriving DecidableEq

/-- Loop of `_mmr_left_peak_height_pos`.  Structural fuel: the loop runs
while `2 ^ (height + 1) - 2 < mmr_size`; for `mmr_size < 2 ^ 64` it exits
by height 64, so 70 rounds of fuel are never exhausted (the fuel-exhaustion
branch returns the same expression as the normal exit). -/
def leftPeakAux (mmr_size : Nat) : Nat → Nat → Nat → PeakInfo
  | 0, height, prev_pos => ⟨prev_pos, height - 1, true⟩
  | f + 1, height, prev_pos =>
    let pos := get_peak_pos_by_height height
    if pos < mmr_size then leftPeakAux mmr_size f (height + 1) pos
    else ⟨prev_pos, height - 1, true⟩

/-- `_mmr_left_peak_height_pos`.  Note: the C function sets `present = 1`
unconditionally, for every `mmr_size` including 0. -/
def left_peak_height_pos (mmr_size : Nat) : PeakInfo :=
  leftPeakAux mmr_size 70 1 0

/-- `uint64_t` subtraction `a - b` for `b ≤ 2 ^ 64`. -/
def u64sub (a b : Nat) : Nat := (a + (U64_MOD - b % U64_MOD)) % U64_MOD

/-- Descent loop of `_mmr_get_right_peak`: while `pos > mmr_size - 1`,
step down one height (structural recursion on the height); `none` models
`present = 0`. -/
def rightPeakDescend (mmr_size : Nat) : Nat → Nat → Option (Nat × Nat)
  | 0, pos => if pos > mmr_size - 1 then none else some (pos, 0)
  | h + 1, pos =>
    if pos > mmr_size - 1 then rightPeakDescend mmr_size h (u64sub pos (parent_offset h))
    else some (pos, h + 1)

/-- `_mmr_get_right_peak`.  On failure the C code only clears `present`,
leaving `pos` and `height` untouched. -/
def get_right_peak (peak : PeakInfo) (mmr_size : Nat) : PeakInfo :=
  match rightPeakDescend mmr_size peak.height
      ((peak.pos + sibling_offset peak.height) % U64_MOD) with
  | none => { peak with present := false }
  | some (pos, height) => ⟨pos, height, true⟩

example : left_peak_height_pos 0 = ⟨0, 0, true⟩ := by decide
example : left_peak_height_pos 1 = ⟨0, 0, true⟩ := by decide
example : left_peak_height_pos 11 = ⟨6, 2, true⟩ := by decide
example : pos_height_in_tree 6 = 2 := by decide
example : pos_height_in_tree 3 = 0 := by decide
example : get_right_peak ⟨6, 2, true⟩ 11 = ⟨9, 1, true⟩ := by decide
example : get_right_peak ⟨10, 0, true⟩ 11 = ⟨10, 0, false⟩ := by decide

/-! ### Verifier state machine (`mmr_verify`) -/

/-- Stack entry kinds (`_MMR_STACK_NODE` / `_MMR_STACK_PROOF` / `_MMR_STACK_PEAK`). -/
inductive StackKind
  | node
  | proof
  | peak
deriving DecidableEq

/-- `_mmr_stack_value_t`. -/
structure StackValue where
  t : StackKind
  node : List Nat
  position : Nat
  height : Nat
deriving DecidableEq

/-- The verifier's mutable state.  `stack` is the live part of the C array
(head of the list = top of the stack, `stack_top` = list length); `proofIdx`
and `leafIdx` are the two reader cursors. -/
structure VState where
  stack : List StackValue
  next_peak_info : PeakInfo
  last_leaf_pos : Nat
  has_last_leaf : Bool
  proofIdx : Nat
  leafIdx : Nat
deriving DecidableEq

/-- Outcome of executing one command: early `return code`, or the next state. -/
inductive StepRes
  | ret (code : Nat)
  | next (s : VState)
deriving DecidableEq

/-- Outcome of the main loop: early `return code`, or the state at
`NoMoreCommands`. -/
inductive LoopResult
  | err (code : Nat)
  | done (s : VState)
deriving DecidableEq

/-- Peak-cursor advance loop of opcode 5: while the cursor is present and
its position differs from `target`, advance by `get_right_peak`.  Structural
fuel: every present cursor has `pos ≤ mmr_size - 1` and each advance moves
`pos` strictly right, so `mmr_size + 2` rounds are never exhausted; the
fuel-exhaustion branch conservatively reports an absent cursor. -/
def advancePeakLoop (mmr_size target : Nat) : Nat → PeakInfo → PeakInfo
  | 0, pk => { pk with present := false }
  | f + 1, pk =>
    if pk.present ∧ target ≠ pk.pos then
      advancePeakLoop mmr_size target f (get_right_peak pk mmr_size)
    else pk

/-- One iteration of the `switch (command)` in `mmr_verify`.  The state `s`
already has `proofIdx` advanced past the command byte (the C command reader
increments its cursor before the switch runs). -/
def stepCmd (merge merge_peaks : List Nat → List Nat → List Nat) (mmr_size : Nat)
    (proofBuf leafBuf : List Nat) (command : Nat) (s : VState) : StepRes :=
  if command = 1 then
    if s.stack.length ≥ MMR_STACK_SIZE then StepRes.ret ERROR_INVALID_STACK
    else
      match default_leaf_iter_read leafBuf s.leafIdx with
      | Except.error e => StepRes.ret e
      | Except.ok (nd, position, j) =>
        if s.has_last_leaf ∧ s.last_leaf_pos ≥ position then StepRes.ret ERROR_INVALID_PROOF
        else if position ≥ mmr_size then StepRes.ret ERROR_INVALID_PROOF
        else if pos_height_in_tree position > 0 then StepRes.ret ERROR_INVALID_PROOF
        else StepRes.next { s with
          stack := ⟨StackKind.node, nd, position, 0⟩ :: s.stack,
          last_leaf_pos := position,
          has_last_leaf := true,
          leafIdx := j }
  else if command = 2 then
    if s.stack.length ≥ MMR_STACK_SIZE then StepRes.ret ERROR_INVALID_STACK
    else
      match default_buffer_read_node proofBuf s.proofIdx with
      | Except.error e => StepRes.ret e
      | Except.ok (nd, j) =>
        StepRes.next { s with
          stack := ⟨StackKind.proof, nd, 0, 0⟩ :: s.stack,
          proofIdx := j }
  else if command = 3 then
    match s.stack with
    | rhs :: lhs :: rest =>
      let pos := if lhs.t = StackKind.proof then rhs.position else lhs.position
      let height := if lhs.t = StackKind.proof then rhs.height else lhs.height
      let next_pos := if lhs.t = StackKind.proof then lhs.position else rhs.position
      let next_t := if lhs.t = StackKind.proof then lhs.t else rhs.t
      let item := if lhs.t = StackKind.proof then rhs.node else lhs.node
      let sibling_item := if lhs.t = StackKind.proof then lhs.node else rhs.node
      let next_height := pos_height_in_tree ((pos + 1) % U64_MOD)
      let sib_pos :=
        if next_height > height then u64sub pos (sibling_offset height)
        else (pos + sibling_offset height) % U64_MOD
      let parent_pos :=
        if next_height > height then (pos + 1) % U64_MOD
        else (pos + parent_offset height) % U64_MOD
      if sib_pos ≠ next_pos ∧ next_t ≠ StackKind.proof then StepRes.ret ERROR_INVALID_PROOF
      else
        let merged :=
          if next_height > height then merge sibling_item item
          else merge item sibling_item
        StepRes.next { s with
          stack := ⟨StackKind.node, merged, parent_pos, height + 1⟩ :: rest }
    | _ => StepRes.ret ERROR_INVALID_STACK
  else if command = 4 then
    match s.stack with
    | top :: bottom :: rest =>
      if top.t ≠ StackKind.peak ∨ bottom.t ≠ StackKind.peak then
        StepRes.ret ERROR_INVALID_PROOF
      else
        StepRes.next { s with
          stack := { bottom with node := merge_peaks top.node bottom.node, height := 0 } :: rest }
    | _ => StepRes.ret ERROR_INVALID_STACK
  else if command = 5 then
    match s.stack with
    | top :: rest =>
      if top.t = StackKind.proof then
        StepRes.next { s with stack := { top with t := StackKind.peak } :: rest }
      else
        let pk := advancePeakLoop mmr_size top.position (mmr_size + 2) s.next_peak_info
        if pk.present = false then StepRes.ret ERROR_INVALID_PROOF
        else StepRes.next { s with
          stack := { top with t := StackKind.peak } :: rest,
          next_peak_info := get_right_peak pk mmr_size }
    | _ => StepRes.ret ERROR_INVALID_STACK
  else StepRes.ret ERROR_INVALID_COMMAND

/-- Main loop of `mmr_verify`.  Structural fuel: every iteration consumes at
least one proof byte, so when entered with fuel `proofBuf.length + 1` the
fuel-exhaustion branch is reached only with the command cursor past the end
of the buffer, where the C loop also terminates with `NoMoreCommands`. -/
def runLoopAux (merge merge_peaks : List Nat → List Nat → List Nat) (mmr_size : Nat)
    (proofBuf leafBuf : List Nat) : Nat → VState → LoopResult
  | 0, s => LoopResult.done s
  | fuel + 1, s =>
    match default_command_read proofBuf s.proofIdx with
    | Except.error e =>
      if e = ERROR_NO_MORE_COMMANDS then LoopResult.done s else LoopResult.err e
    | Except.ok (command, i) =>
      match stepCmd merge merge_peaks mmr_size proofBuf leafBuf command
          { s with proofIdx := i } with
      | StepRes.ret c => LoopResult.err c
      | StepRes.next s2 => runLoopAux merge merge_peaks mmr_size proofBuf leafBuf fuel s2

/-- Verifier state at entry of the main loop. -/
def initState (mmr_size : Nat) : VState :=
  { stack := []
    next_peak_info := left_peak_height_pos mmr_size
    last_leaf_pos := 0
    has_last_leaf := false
    proofIdx := 0
    leafIdx := 0 }

/-- `mmr_verify`, instantiated (as the header is by default) with the
default buffer readers; `root` is the byte buffer behind the `root`
pointer and `root_length` the separate length argument. -/
def mmr_verify (merge merge_peaks : List Nat → List Nat → List Nat)
    (root : List Nat) (root_length mmr_size : Nat)
    (proofBuf leafBuf : List Nat) : Nat :=
  if mmr_size = 0 then ERROR_INVALID_PROOF
  else
    match runLoopAux merge merge_peaks mmr_size proofBuf leafBuf
        (proofBuf.length + 1) (initState mmr_size) with
    | LoopResult.err c => c
    | LoopResult.done s =>
      if s.stack.length ≠ 1 then ERROR_INVALID_PROOF
      else
        match s.stack with
        | e :: _ =>
          match default_leaf_iter_read leafBuf s.leafIdx with
          | Except.ok _ => ERROR_INVALID_PROOF
          | Except.error _ =>
            if root_length ≠ e.node.length ∨ root.take root_length ≠ e.node.take root_length then
              ERROR_INVALID_PROOF
            else 0
        | [] => ERROR_INVALID_PROOF

/-- One iteration of the main loop as a relation: a command byte is
available at the proof cursor and executing it yields state `s2`. -/
def loopStepRel (merge merge_peaks : List Nat → List Nat → List Nat) (mmr_size : Nat)
    (proofBuf leafBuf : List Nat) (s s2 : VState) : Prop :=
  s.proofIdx < proofBuf.length ∧
    stepCmd merge merge_peaks mmr_size proofBuf leafBuf (proofBuf.getD s.proofIdx 0)
      { s with proofIdx := s.proofIdx + 1 } = StepRes.next s2

/-- States the main loop passes through, starting from `initState`. -/
def reachableState (merge merge_peaks : List Nat → List Nat → List Nat) (mmr_size : Nat)
    (proofBuf leafBuf : List Nat) (s : VState) : Prop :=
  Relation.ReflTransGen (loopStepRel merge merge_peaks mmr_size proofBuf leafBuf)
    (initState mmr_size) s

/-! ### Spec-side model for opcode 3 (claim C3) and concrete run data -/

/-- Transcription of claim C3's wording for opcode 3: given the anchor (the
non-Proof entry among the top two, or the top entry when the one beneath is
a Proof) and the other entry, compute sibling / parent positions from the
anchor's coordinates, reject when a non-Proof other entry sits at the wrong
position, and otherwise replace both entries by the merged Node. -/
def stepOp3Model (merge : List Nat → List Nat → List Nat)
    (anchor other : StackValue) (s : VState) (rest : List StackValue) : StepRes :=
  let pos := anchor.position
  let h := anchor.height
  let right := pos_height_in_tree ((pos + 1) % U64_MOD) > h
  let sib_pos :=
    if right then u64sub pos (sibling_offset h) else (pos + sibling_offset h) % U64_MOD
  let parent_pos :=
    if right then (pos + 1) % U64_MOD else (pos + parent_offset h) % U64_MOD
  let merged := if right then merge other.node anchor.node else merge anchor.node other.node
  if other.t ≠ StackKind.proof ∧ other.position ≠ sib_pos then
    StepRes.ret ERROR_INVALID_PROOF
  else
    StepRes.next { s with stack := ⟨StackKind.node, merged, parent_pos, h + 1⟩ :: rest }

/-- A concrete merge function for concrete runs (the hooks are macro
parameters in the C header, so runs are meaningful for any merge). -/
def mergeConcat : List Nat → List Nat → List Nat := fun a b => a ++ b

/-- Proof stream for the concrete run of claims C2/C3/C10:
push leaf, push leaf, merge. -/
def pbC2 : List Nat := [1, 1, 3]

/-- Leaf stream for the concrete run: records `(0, [170])` and `(1, [187])`. -/
def lbC2 : List Nat :=
  [0, 0, 0, 0, 0, 0, 0, 0, 1, 0, 170, 1, 0, 0, 0, 0, 0, 0, 0, 1, 0, 187]

/-- State after the first `1` command of the concrete run (`mmr_size = 2`). -/
def sC2b : VState :=
  ⟨[⟨StackKind.node, [170], 0, 0⟩], ⟨0, 0, true⟩, 0, true, 1, 11⟩

/-- State after the second `1` command. -/
def sC2c : VState :=
  ⟨[⟨StackKind.node, [187], 1, 0⟩, ⟨StackKind.node, [170], 0, 0⟩], ⟨0, 0, true⟩, 1, true, 2, 22⟩

/-- State after the `3` command: a Node entry at position 2 with
`mmr_size = 2`. -/
def sC2d : VState :=
  ⟨[⟨StackKind.node, [170, 187], 2, 1⟩], ⟨0, 0, true⟩, 1, true, 3, 22⟩

/-- Leaf stream for claim C6's counterexample: one record `(0, [170])`
followed by a single dangling byte. -/
def lbC6 : List Nat := [0, 0, 0, 0, 0, 0, 0, 0, 1, 0, 170, 0]

/-- Leaf stream for claim C6's witness: one record `(0, [170])` followed by
a complete second record `(0, [])`. -/
def lbC6b : List Nat := [0, 0, 0, 0, 0, 0, 0, 0, 1, 0, 170, 0, 0, 0, 0, 0, 0, 0, 0, 0, 0]

/-- Final loop state of the `mmr_size = 1` runs used for claim C6. -/
def sC6 : VState :=
  ⟨[⟨StackKind.peak, [170], 0, 0⟩], ⟨0, 0, false⟩, 0, true, 2, 11⟩

/-- Leaf buffer for claim C9's witness: position 0, node `[9]`. -/
def bufC9 : List Nat := [0, 0, 0, 0, 0, 0, 0, 0, 1, 0, 9]

/-- Leaf stream for claim C1's witness: exactly one record `(0, [170])`. -/
def lbC1 : List Nat := [0, 0, 0, 0, 0, 0, 0, 0, 1, 0, 170]

/-- Proof stream for claim C2's counterexample run (`mmr_size = 4`):
commands `1, 1, 3, 5, 1, 5, 4, 2, 3` with a zero-length node record
embedded after the `2`. -/
def pbC2b : List Nat := [1, 1, 3, 5, 1, 5, 4, 2, 0, 0, 3]

/-- Leaf stream for claim C2's counterexample run: records `(0, [170])`,
`(1, [187])`, `(3, [204])`. -/
def lbC2b : List Nat :=
  [0, 0, 0, 0, 0, 0, 0, 0, 1, 0, 170,
   1, 0, 0, 0, 0, 0, 0, 0, 1, 0, 187,
   3, 0, 0, 0, 0, 0, 0, 0, 1, 0, 204]

/-- States of the claim C2 counterexample run, one per executed command. -/
def sC2r1 : VState :=
  ⟨[⟨StackKind.node, [170], 0, 0⟩], ⟨2, 1, true⟩, 0, true, 1, 11⟩

def sC2r2 : VState :=
  ⟨[⟨StackKind.node, [187], 1, 0⟩, ⟨StackKind.node, [170], 0, 0⟩], ⟨2, 1, true⟩, 1, true, 2, 22⟩

def sC2r3 : VState :=
  ⟨[⟨StackKind.node, [170, 187], 2, 1⟩], ⟨2, 1, true⟩, 1, true, 3, 22⟩

def sC2r4 : VState :=
  ⟨[⟨StackKind.peak, [170, 187], 2, 1⟩], ⟨3, 0, true⟩, 1, true, 4, 22⟩

def sC2r5 : VState :=
  ⟨[⟨StackKind.node, [204], 3, 0⟩, ⟨StackKind.peak, [170, 187], 2, 1⟩], ⟨3, 0, true⟩, 3, true, 5, 33⟩

def sC2r6 : VState :=
  ⟨[⟨StackKind.peak, [204], 3, 0⟩, ⟨StackKind.peak, [170, 187], 2, 1⟩], ⟨3, 0, false⟩, 3, true, 6, 33⟩

/-- After opcode 4: the surviving slot keeps `t = Peak` and `position = 2`
but its height is reset to 0, while position 2 has tree height 1. -/
def sC2r7 : VState :=
  ⟨[⟨StackKind.peak, [204, 170, 187], 2, 0⟩], ⟨3, 0, false⟩, 3, true, 7, 33⟩

def sC2r8 : VState :=
  ⟨[⟨StackKind.proof, [], 0, 0⟩, ⟨StackKind.peak, [204, 170, 187], 2, 0⟩], ⟨3, 0, false⟩, 3, true, 10, 33⟩

/-- Final state: the opcode-3 merge anchored at `(pos 2, height 0)` yields a
Node at position 4, height 1, although `height_of_position(4) = 0` and
`mmr_size = 4`. -/
def sC2r9 : VState :=
  ⟨[⟨StackKind.node, [204, 170, 187], 4, 1⟩], ⟨3, 0, false⟩, 3, true, 11, 33⟩

/-! ### Helper lemmas -/

/-- The node reader only fails with `NodeEOF`. -/
theorem default_buffer_read_node_err {buf : List Nat} {i e : Nat}
    (h : default_buffer_read_node buf i = Except.error e) : e = ERROR_NODE_EOF := by
  unfold default_buffer_read_node at h
  dsimp only at h
  split at h
  · exact ((Except.error.injEq _ _).mp h).symm
  · split at h
    · exact ((Except.error.injEq _ _).mp h).symm
    · exact absurd h (by simp)

/-- Every leaf-reader failure code is at least 80. -/
theorem default_leaf_iter_read_err {buf : List Nat} {i e : Nat}
    (h : default_leaf_iter_read buf i = Except.error e) : 80 ≤ e := by
  unfold default_leaf_iter_read at h
  split at h
  · rw [← (Except.error.injEq _ _).mp h]
    decide
  · split at h
    · rw [← (Except.error.injEq _ _).mp h]
      decide
    · split at h
      · rename_i hr
        rw [← (Except.error.injEq _ _).mp h, default_buffer_read_node_err hr]
        decide
      · exact absurd h (by simp)

/-- The command reader only fails with `NoMoreCommands`. -/
theorem default_command_read_err {buf : List Nat} {i e : Nat}
    (h : default_command_read buf i = Except.error e) : e = ERROR_NO_MORE_COMMANDS := by
  unfold default_command_read at h
  split at h
  · exact ((Except.error.injEq _ _).mp h).symm
  · exact absurd h (by simp)

/-- Injectivity of early returns. -/
theorem ret_code_eq {a c : Nat} (h : StepRes.ret a = StepRes.ret c) : a = c :=
  (StepRes.ret.injEq _ _).mp h

/-- Every early-return code of a command step is at least 80 (in particular
it is never the success code 0). -/
theorem stepCmd_ret_code {merge merge_peaks : List Nat → List Nat → List Nat}
    {mmr_size : Nat} {proofBuf leafBuf : List Nat} {command : Nat} {s : VState} {c : Nat}
    (h : stepCmd merge merge_peaks mmr_size proofBuf leafBuf command s = StepRes.ret c) :
    80 ≤ c := by
  unfold stepCmd at h
  dsimp only at h
  repeat' split at h
  all_goals try (obtain rfl := ret_code_eq h)
  all_goals try decide
  all_goals
    first
      | (rename_i hr; exact default_leaf_iter_read_err hr)
      | (rename_i hr; rw [default_buffer_read_node_err hr]; decide)
      | simp at h

/-- Every early-return code of the main loop is at least 80. -/
theorem runLoopAux_err_code {merge merge_peaks : List Nat → List Nat → List Nat}
    {mmr_size : Nat} {proofBuf leafBuf : List Nat} :
    ∀ {fuel : Nat} {s : VState} {c : Nat},
      runLoopAux merge merge_peaks mmr_size proofBuf leafBuf fuel s = LoopResult.err c →
      80 ≤ c := by
  intro fuel
  induction fuel with
  | zero =>
    intro s c h
    exact absurd h (by simp [runLoopAux])
  | succ f ih =>
    intro s c h
    unfold runLoopAux at h
    split at h
    · split at h
      · exact absurd h (by simp)
      · rename_i hr hne
        obtain rfl := (LoopResult.err.injEq _ _).mp h
        rw [default_command_read_err hr]
        decide
    · split at h
      · rename_i hstep
        obtain rfl := (LoopResult.err.injEq _ _).mp h
        exact stepCmd_ret_code hstep
      · exact ih h

/-! ### Claim theorems -/

/-- Claim C9: the default leaf reader returns `NoMoreLeaves` when the cursor
is exactly at the end of the buffer, `LeafEOF` when fewer than 8 bytes remain
for the position field, `NodeEOF` when the position was read but the
length-prefixed node is truncated, and otherwise yields the little-endian
`u64` position together with the node, advancing the cursor past the whole
record. -/
theorem claim_C9 (buf : List Nat) (i : Nat) :
    (i = buf.length → default_leaf_iter_read buf i = Except.error ERROR_NO_MORE_LEAFS) ∧
    (i < buf.length → buf.length - i < 8 →
      default_leaf_iter_read buf i = Except.error ERROR_LEAF_EOF) ∧
    (8 ≤ buf.length - i →
      default_buffer_read_node buf (i + 8) = Except.error ERROR_NODE_EOF →
      default_leaf_iter_read buf i = Except.error ERROR_NODE_EOF) ∧
    (∀ nd j, 8 ≤ buf.length - i →
      default_buffer_read_node buf (i + 8) = Except.ok (nd, j) →
      default_leaf_iter_read buf i = Except.ok (nd, readU64LE buf i, j)) := by
  refine ⟨?_, ?_, ?_, ?_⟩
  · intro h
    unfold default_leaf_iter_read
    rw [if_pos (by omega)]
  · intro h1 h2
    unfold default_leaf_iter_read
    rw [if_neg (by omega), if_pos h2]
  · intro h8 hnode
    unfold default_leaf_iter_read
    rw [if_neg (by omega), if_neg (by omega), hnode]
  · intro nd j h8 hnode
    unfold default_leaf_iter_read
    rw [if_neg (by omega), if_neg (by omega), hnode]

/-- Claim C9 witness: concrete record `(position 0, node [9])`. -/
theorem claim_C9_witness :
    (8 ≤ bufC9.length - 0 ∧ default_buffer_read_node bufC9 (0 + 8) = Except.ok ([9], 11)) ∧
    default_leaf_iter_read bufC9 0 = Except.ok ([9], readU64LE bufC9 0, 11) :=
  ⟨⟨by decide, by decide⟩, (claim_C9 bufC9 0).2.2.2 [9] 11 (by decide) (by decide)⟩

/-- Claim C7 counterexample: the claim asserts `left_peak` returns
`present = false` exactly when `mmr_size = 0`, but the C function sets
`present = 1` unconditionally, so at `mmr_size = 0` it still reports a
present peak. -/
theorem claim_C7_counterexample :
    ¬ (∀ mmr_size : Nat,
        ((left_peak_height_pos mmr_size).present = false ↔ mmr_size = 0)) := by
  intro h
  exact absurd ((h 0).mpr rfl) (by decide)

/-- Unfolding lemma for the `left_peak` loop: if `h` is the first height at
or above `h0` whose perfect-peak position reaches `mmr_size`, the loop
returns the previous height's peak. -/
theorem leftPeakAux_eq (mmr_size : Nat) :
    ∀ (f h0 h : Nat), 1 ≤ h0 → h0 ≤ h → h - h0 < f →
      mmr_size ≤ get_peak_pos_by_height h →
      (∀ h2, h2 < h → h0 ≤ h2 → get_peak_pos_by_height h2 < mmr_size) →
      leftPeakAux mmr_size f h0 (get_peak_pos_by_height (h0 - 1)) =
        ⟨get_peak_pos_by_height (h - 1), h - 1, true⟩ := by
  intro f
  induction f with
  | zero =>
    intro h0 h _ _ hf _ _
    omega
  | succ f ih =>
    intro h0 h h01 h0h hf hge hlt
    unfold leftPeakAux
    dsimp only
    by_cases hc : get_peak_pos_by_height h0 < mmr_size
    · have hne : h0 ≠ h := by
        intro e
        rw [e] at hc
        omega
      rw [if_pos hc]
      have hrec := ih (h0 + 1) h (by omega) (by omega) (by omega) hge
        (fun h2 hh2 hh0 => hlt h2 hh2 (by omega))
      rw [Nat.add_sub_cancel] at hrec
      exact hrec
    · rw [if_neg hc]
      have hh : h = h0 := by
        by_contra hne
        exact hc (hlt h0 (by omega) (le_refl h0))
      rw [hh]

/-- Claim C7 amended: `left_peak(mmr_size)` always returns `present = true`
(also for `mmr_size = 0`); for every `mmr_size < 2 ^ 64` it returns
`pos = peak_pos_by_height(h - 1)` and `height = h - 1`, where `h` is the
first height starting from 1 such that `peak_pos_by_height(h) ≥ mmr_size`. -/
theorem claim_C7_amended (mmr_size h : Nat) (hms : mmr_size < 2 ^ 64)
    (h1 : 1 ≤ h) (hge : mmr_size ≤ get_peak_pos_by_height h)
    (hlt : ∀ h2, h2 < h → 1 ≤ h2 → get_peak_pos_by_height h2 < mmr_size) :
    left_peak_height_pos mmr_size =
      ⟨get_peak_pos_by_height (h - 1), h - 1, true⟩ := by
  have hpp64 : get_peak_pos_by_height 64 = 36893488147419103230 := by decide
  have h2p : (2 : Nat) ^ 64 = 18446744073709551616 := by norm_num
  have hh64 : h ≤ 64 := by
    by_contra hgt
    have h64 := hlt 64 (by omega) (by omega)
    omega
  have h00 : (0 : Nat) = get_peak_pos_by_height 0 := by decide
  unfold left_peak_height_pos
  rw [h00]
  exact leftPeakAux_eq mmr_size 70 1 h (le_refl 1) h1 (by omega) hge hlt

/-- Claim C7 witness: `mmr_size = 5`, first overshooting height `h = 2`,
giving the left peak at position 2, height 1. -/
theorem claim_C7_witness :
    (5 < 2 ^ 64 ∧ 1 ≤ 2 ∧ 5 ≤ get_peak_pos_by_height 2 ∧
      (∀ h2, h2 < 2 → 1 ≤ h2 → get_peak_pos_by_height h2 < 5)) ∧
    left_peak_height_pos 5 = ⟨2, 1, true⟩ :=
  ⟨⟨by norm_num, by norm_num, by decide, by decide⟩,
    claim_C7_amended 5 2 (by norm_num) (by norm_num) (by decide) (by decide)⟩

/-- Claim C3: opcode 3 with at least two stack entries behaves exactly as
described by the spec's anchor/sibling computation (`stepOp3Model` is the
transcription of the claim's wording): the anchor is the non-Proof entry
among the top two (the top one when the entry beneath is a Proof); a right
child anchors a `merge(sibling, anchor)` at parent `pos + 1`, a left child
a `merge(anchor, sibling)` at `pos + parent_offset(height)`; a non-Proof
other entry at the wrong position gives `InvalidProof`; otherwise both
entries are replaced by the merged Node at the parent with height + 1. -/
theorem claim_C3 (merge merge_peaks : List Nat → List Nat → List Nat)
    (mmr_size : Nat) (proofBuf leafBuf : List Nat) (s : VState)
    (top under : StackValue) (rest : List StackValue)
    (hstack : s.stack = top :: under :: rest) :
    stepCmd merge merge_peaks mmr_size proofBuf leafBuf 3 s =
      stepOp3Model merge
        (if under.t = StackKind.proof then top else under)
        (if under.t = StackKind.proof then under else top)
        s rest := by
  unfold stepCmd stepOp3Model
  rw [hstack]
  norm_num
  by_cases hp : under.t = StackKind.proof
  · by_cases hr : pos_height_in_tree ((top.position + 1) % U64_MOD) > top.height <;>
      simp [hp, hr]
  · by_cases hr : pos_height_in_tree ((under.position + 1) % U64_MOD) > under.height
    · by_cases hq : top.t = StackKind.proof
      · simp [hp, hr, hq]
      · by_cases hs2 : u64sub under.position (sibling_offset under.height) = top.position
        · simp [hp, hr, hq, hs2]
        · have hs2' : top.position ≠ u64sub under.position (sibling_offset under.height) :=
            fun e => hs2 e.symm
          simp [hp, hr, hq, hs2, hs2']
    · by_cases hq : top.t = StackKind.proof
      · simp [hp, hr, hq]
      · by_cases hs2 : (under.position + sibling_offset under.height) % U64_MOD = top.position
        · simp [hp, hr, hq, hs2]
        · have hs2' : top.position ≠ (under.position + sibling_offset under.height) % U64_MOD :=
            fun e => hs2 e.symm
          simp [hp, hr, hq, hs2, hs2']

/-- Claim C3 witness: the merge step of the concrete two-leaf run. -/
theorem claim_C3_witness :
    (sC2c.stack =
      (⟨StackKind.node, [187], 1, 0⟩ : StackValue) ::
        (⟨StackKind.node, [170], 0, 0⟩ : StackValue) :: []) ∧
    stepCmd mergeConcat mergeConcat 2 pbC2 lbC2 3 sC2c =
      stepOp3Model mergeConcat
        (if (⟨StackKind.node, [170], 0, 0⟩ : StackValue).t = StackKind.proof then
          ⟨StackKind.node, [187], 1, 0⟩ else ⟨StackKind.node, [170], 0, 0⟩)
        (if (⟨StackKind.node, [170], 0, 0⟩ : StackValue).t = StackKind.proof then
          ⟨StackKind.node, [170], 0, 0⟩ else ⟨StackKind.node, [187], 1, 0⟩)
        sC2c [] :=
  ⟨by decide,
    claim_C3 mergeConcat mergeConcat 2 pbC2 lbC2 sC2c
      ⟨StackKind.node, [187], 1, 0⟩ ⟨StackKind.node, [170], 0, 0⟩ [] (by decide)⟩

/-- Claim C4: for opcode 1, after a successful leaf read of
`(node, position)`, the step rejects with `InvalidProof` exactly when a
previous leaf exists and `position ≤ last_leaf_pos`, or
`position ≥ mmr_size`, or `height_of_position(position) ≠ 0`; otherwise it
pushes a Node entry with that node, that position and height 0, and records
the position as the new last leaf position. -/
theorem claim_C4 (merge merge_peaks : List Nat → List Nat → List Nat)
    (mmr_size : Nat) (proofBuf leafBuf : List Nat) (s : VState)
    (nd : List Nat) (position j : Nat)
    (hcap : s.stack.length < MMR_STACK_SIZE)
    (hread : default_leaf_iter_read leafBuf s.leafIdx = Except.ok (nd, position, j)) :
    (stepCmd merge merge_peaks mmr_size proofBuf leafBuf 1 s = StepRes.ret ERROR_INVALID_PROOF ↔
      ((s.has_last_leaf = true ∧ position ≤ s.last_leaf_pos) ∨ mmr_size ≤ position ∨
        pos_height_in_tree position ≠ 0)) ∧
    (¬ ((s.has_last_leaf = true ∧ position ≤ s.last_leaf_pos) ∨ mmr_size ≤ position ∨
        pos_height_in_tree position ≠ 0) →
      stepCmd merge merge_peaks mmr_size proofBuf leafBuf 1 s = StepRes.next { s with
        stack := ⟨StackKind.node, nd, position, 0⟩ :: s.stack,
        last_leaf_pos := position,
        has_last_leaf := true,
        leafIdx := j }) := by
  have hncap : ¬ s.stack.length ≥ MMR_STACK_SIZE := by omega
  constructor
  · unfold stepCmd
    norm_num
    rw [if_neg hncap]
    simp only [hread]
    by_cases h1 : s.has_last_leaf = true ∧ position ≤ s.last_leaf_pos
    · rw [if_pos h1]
      exact ⟨fun _ => Or.inl h1, fun _ => rfl⟩
    · rw [if_neg h1]
      by_cases h2 : mmr_size ≤ position
      · rw [if_pos h2]
        exact ⟨fun _ => Or.inr (Or.inl h2), fun _ => rfl⟩
      · rw [if_neg h2]
        by_cases h3 : 0 < pos_height_in_tree position
        · rw [if_pos h3]
          exact ⟨fun _ => Or.inr (Or.inr (by omega)), fun _ => rfl⟩
        · rw [if_neg h3]
          constructor
          · intro h
            exact absurd h (by simp)
          · intro hor
            rcases hor with hor | hor | hor
            · exact absurd hor h1
            · exact absurd hor h2
            · exact absurd (by omega : 0 < pos_height_in_tree position) h3
  · intro hnone
    push_neg at hnone
    obtain ⟨hn1, hn2, hn3⟩ := hnone
    unfold stepCmd
    norm_num
    rw [if_neg hncap]
    simp only [hread]
    have h1 : ¬ (s.has_last_leaf = true ∧ position ≤ s.last_leaf_pos) := by
      intro hand
      exact absurd (hn1 hand.1) (by omega)
    rw [if_neg h1, if_neg (by omega : ¬ mmr_size ≤ position),
      if_neg (by omega : ¬ 0 < pos_height_in_tree position)]

/-- Claim C4 witness: pushing leaf `(0, [170])` on the empty stack with
`mmr_size = 2`. -/
theorem claim_C4_witness :
    ((initState 2).stack.length < MMR_STACK_SIZE ∧
      default_leaf_iter_read lbC2 (initState 2).leafIdx = Except.ok ([170], 0, 11)) ∧
    stepCmd mergeConcat mergeConcat 2 pbC2 lbC2 1 (initState 2) =
      StepRes.next { initState 2 with
        stack := ⟨StackKind.node, [170], 0, 0⟩ :: (initState 2).stack,
        last_leaf_pos := 0,
        has_last_leaf := true,
        leafIdx := 11 } :=
  ⟨⟨by decide, by decide⟩,
    (claim_C4 mergeConcat mergeConcat 2 pbC2 lbC2 (initState 2) [170] 0 11
      (by decide) (by decide)).2 (by decide)⟩

/-- Claim C5: for opcode 5 on a non-empty stack, a Proof-tagged top entry is
retagged to Peak with no peak-cursor movement and no positional check;
otherwise the cursor is advanced by `right_peak` until it is absent
(`InvalidProof`) or its position equals the top entry's position, after
which it is advanced once more and the top entry is retagged to Peak.  The
last conjunct states the loop's exit condition: a present result of the
advance loop sits exactly at the top entry's position. -/
theorem claim_C5 (merge merge_peaks : List Nat → List Nat → List Nat)
    (mmr_size : Nat) (proofBuf leafBuf : List Nat) (s : VState)
    (top : StackValue) (rest : List StackValue)
    (hstack : s.stack = top :: rest) :
    (top.t = StackKind.proof →
      stepCmd merge merge_peaks mmr_size proofBuf leafBuf 5 s =
        StepRes.next { s with stack := { top with t := StackKind.peak } :: rest }) ∧
    (top.t ≠ StackKind.proof →
      stepCmd merge merge_peaks mmr_size proofBuf leafBuf 5 s =
        (if (advancePeakLoop mmr_size top.position (mmr_size + 2) s.next_peak_info).present
            = false then
          StepRes.ret ERROR_INVALID_PROOF
        else
          StepRes.next { s with
            stack := { top with t := StackKind.peak } :: rest,
            next_peak_info :=
              get_right_peak
                (advancePeakLoop mmr_size top.position (mmr_size + 2) s.next_peak_info)
                mmr_size })) ∧
    (∀ target fuel pk,
      (advancePeakLoop mmr_size target fuel pk).present = true →
      (advancePeakLoop mmr_size target fuel pk).pos = target) := by
  refine ⟨?_, ?_, ?_⟩
  · intro hp
    unfold stepCmd
    norm_num
    simp only [hstack]
    rw [if_pos hp]
  · intro hp
    unfold stepCmd
    norm_num
    simp only [hstack]
    rw [if_neg hp]
  · intro target fuel
    induction fuel with
    | zero =>
      intro pk hp
      simp [advancePeakLoop] at hp
    | succ f ih =>
      intro pk hp
      unfold advancePeakLoop at hp ⊢
      by_cases hc : pk.present ∧ target ≠ pk.pos
      · rw [if_pos hc] at hp ⊢
        exact ih _ hp
      · rw [if_neg hc] at hp ⊢
        push_neg at hc
        exact (hc hp).symm

/-- Claim C5 witness: opcode 5 on the single Node entry of the one-leaf run
(`mmr_size = 1`): the cursor already sits at position 0, so it matches and
is advanced past the only peak (becoming absent). -/
theorem claim_C5_witness :
    ((⟨[⟨StackKind.node, [170], 0, 0⟩], ⟨0, 0, true⟩, 0, true, 1, 11⟩ : VState).stack =
      (⟨StackKind.node, [170], 0, 0⟩ : StackValue) :: []) ∧
    stepCmd mergeConcat mergeConcat 1 [1, 5] lbC6 5
      ⟨[⟨StackKind.node, [170], 0, 0⟩], ⟨0, 0, true⟩, 0, true, 1, 11⟩ =
      StepRes.next ⟨[⟨StackKind.peak, [170], 0, 0⟩], ⟨0, 0, false⟩, 0, true, 1, 11⟩ := by
  refine ⟨rfl, ?_⟩
  have h := (claim_C5 mergeConcat mergeConcat 1 [1, 5] lbC6
    ⟨[⟨StackKind.node, [170], 0, 0⟩], ⟨0, 0, true⟩, 0, true, 1, 11⟩
    ⟨StackKind.node, [170], 0, 0⟩ [] rfl).2.1 (by decide)
  rw [h]
  decide

/-- Injectivity of loop continuations. -/
theorem next_state_eq {a b : VState} (h : StepRes.next a = StepRes.next b) : a = b :=
  (StepRes.next.injEq _ _).mp h

/-- Taking at most the bottom `k` entries (in bottom-first order) ignores a
newly pushed top entry. -/
theorem reverse_take_bottom (st : List StackValue) (k : Nat) (e : StackValue)
    (hk : k ≤ st.length) :
    ((e :: st).reverse).take k = st.reverse.take k := by
  rw [List.reverse_cons, List.take_append_eq_append_take,
    Nat.sub_eq_zero_of_le (by simpa using hk)]
  simp

/-- Claim C10: every iteration of the main loop modifies at most the top two
stack slots: whenever a command yields a next state, the bottom
`stack_top - 2` entries (bottom-first order) are unchanged, and for opcodes
1, 2 and 5 even the bottom `stack_top - 1` entries are unchanged. -/
theorem claim_C10 (merge merge_peaks : List Nat → List Nat → List Nat)
    (mmr_size : Nat) (proofBuf leafBuf : List Nat) (command : Nat) (s s2 : VState)
    (hstep : stepCmd merge merge_peaks mmr_size proofBuf leafBuf command s = StepRes.next s2) :
    s2.stack.reverse.take (s.stack.length - 2) = s.stack.reverse.take (s.stack.length - 2) ∧
    (command = 1 ∨ command = 2 ∨ command = 5 →
      s2.stack.reverse.take (s.stack.length - 1) =
        s.stack.reverse.take (s.stack.length - 1)) := by
  by_cases hc1 : command = 1
  · subst hc1
    unfold stepCmd at hstep
    norm_num at hstep
    split at hstep
    · exact absurd hstep (by simp)
    · split at hstep
      · exact absurd hstep (by simp)
      · split at hstep
        · exact absurd hstep (by simp)
        · split at hstep
          · exact absurd hstep (by simp)
          · split at hstep
            · exact absurd hstep (by simp)
            · obtain rfl := next_state_eq hstep
              refine ⟨?_, fun _ => ?_⟩ <;>
                exact reverse_take_bottom _ _ _ (by omega)
  · by_cases hc2 : command = 2
    · subst hc2
      unfold stepCmd at hstep
      norm_num at hstep
      split at hstep
      · exact absurd hstep (by simp)
      · split at hstep
        · exact absurd hstep (by simp)
        · obtain rfl := next_state_eq hstep
          refine ⟨?_, fun _ => ?_⟩ <;>
            exact reverse_take_bottom _ _ _ (by omega)
    · by_cases hc3 : command = 3
      · subst hc3
        unfold stepCmd at hstep
        norm_num at hstep
        rcases hs : s.stack with _ | ⟨a, _ | ⟨b, r⟩⟩
        · rw [hs] at hstep
          simp at hstep
        · rw [hs] at hstep
          simp at hstep
        · rw [hs] at hstep
          dsimp only at hstep
          repeat' split at hstep
          all_goals try (simp only [reduceCtorEq] at hstep)
          all_goals obtain rfl := next_state_eq hstep
          all_goals refine ⟨?_, fun hor => by rcases hor with h | h | h <;> simp at h⟩
          all_goals dsimp only
          all_goals simp only [List.length_cons]
          all_goals
            rw [reverse_take_bottom r _ _ (by omega),
              reverse_take_bottom (b :: r) _ a (by rw [List.length_cons]; omega),
              reverse_take_bottom r _ b (by omega)]
      · by_cases hc4 : command = 4
        · subst hc4
          unfold stepCmd at hstep
          norm_num at hstep
          rcases hs : s.stack with _ | ⟨a, _ | ⟨b, r⟩⟩
          · rw [hs] at hstep
            simp at hstep
          · rw [hs] at hstep
            simp at hstep
          · rw [hs] at hstep
            dsimp only at hstep
            repeat' split at hstep
            all_goals try (simp only [reduceCtorEq] at hstep)
            all_goals obtain rfl := next_state_eq hstep
            all_goals refine ⟨?_, fun hor => by rcases hor with h | h | h <;> simp at h⟩
            all_goals dsimp only
            all_goals simp only [List.length_cons]
            all_goals
              rw [reverse_take_bottom r _ _ (by omega),
                reverse_take_bottom (b :: r) _ a (by rw [List.length_cons]; omega),
                reverse_take_bottom r _ b (by omega)]
        · by_cases hc5 : command = 5
          · subst hc5
            unfold stepCmd at hstep
            norm_num at hstep
            rcases hs : s.stack with _ | ⟨a, r⟩
            · rw [hs] at hstep
              simp at hstep
            · rw [hs] at hstep
              dsimp only at hstep
              repeat' split at hstep
              all_goals try (simp only [reduceCtorEq] at hstep)
              all_goals obtain rfl := next_state_eq hstep
              all_goals refine ⟨?_, fun _ => ?_⟩
              all_goals dsimp only
              all_goals simp only [List.length_cons]
              all_goals
                rw [reverse_take_bottom r _ _ (by omega),
                  reverse_take_bottom r _ _ (by omega)]
          · unfold stepCmd at hstep
            rw [if_neg hc1, if_neg hc2, if_neg hc3, if_neg hc4, if_neg hc5] at hstep
            exact absurd hstep (by simp)

/-- Claim C10 witness: the merge step of the concrete run keeps the (empty)
part of the stack below the top two entries unchanged. -/
theorem claim_C10_witness :
    (stepCmd mergeConcat mergeConcat 2 pbC2 lbC2 3 { sC2c with proofIdx := 3 } =
      StepRes.next sC2d) ∧
    sC2d.stack.reverse.take (({ sC2c with proofIdx := 3 } : VState).stack.length - 2) =
      ({ sC2c with proofIdx := 3 } : VState).stack.reverse.take
        (({ sC2c with proofIdx := 3 } : VState).stack.length - 2) :=
  ⟨by decide,
    (claim_C10 mergeConcat mergeConcat 2 pbC2 lbC2 3 { sC2c with proofIdx := 3 } sC2d
      (by decide)).1⟩

/-- A command step never grows the stack beyond `MMR_STACK_SIZE`. -/
theorem stepCmd_stack_bound {merge merge_peaks : List Nat → List Nat → List Nat}
    {mmr_size : Nat} {proofBuf leafBuf : List Nat} {command : Nat} {s s2 : VState}
    (hstep : stepCmd merge merge_peaks mmr_size proofBuf leafBuf command s = StepRes.next s2)
    (hle : s.stack.length ≤ MMR_STACK_SIZE) :
    s2.stack.length ≤ MMR_STACK_SIZE := by
  by_cases hc1 : command = 1
  · subst hc1
    unfold stepCmd at hstep
    norm_num at hstep
    split at hstep
    · simp at hstep
    · rename_i hfull
      split at hstep
      · simp at hstep
      · repeat' split at hstep
        all_goals try (simp only [reduceCtorEq] at hstep)
        all_goals obtain rfl := next_state_eq hstep
        all_goals dsimp only
        all_goals simp only [List.length_cons]
        all_goals simp only [MMR_STACK_SIZE] at hfull ⊢
        all_goals omega
  · by_cases hc2 : command = 2
    · subst hc2
      unfold stepCmd at hstep
      norm_num at hstep
      split at hstep
      · simp at hstep
      · rename_i hfull
        repeat' split at hstep
        all_goals try (simp only [reduceCtorEq] at hstep)
        all_goals obtain rfl := next_state_eq hstep
        all_goals dsimp only
        all_goals simp only [List.length_cons]
        all_goals simp only [MMR_STACK_SIZE] at hfull ⊢
        all_goals omega
    · by_cases hc3 : command = 3
      · subst hc3
        unfold stepCmd at hstep
        norm_num at hstep
        rcases hs : s.stack with _ | ⟨a, _ | ⟨b, r⟩⟩
        · rw [hs] at hstep
          simp at hstep
        · rw [hs] at hstep
          simp at hstep
        · rw [hs] at hstep
          dsimp only at hstep
          rw [hs] at hle
          repeat' split at hstep
          all_goals try (simp only [reduceCtorEq] at hstep)
          all_goals obtain rfl := next_state_eq hstep
          all_goals dsimp only
          all_goals simp only [List.length_cons] at hle ⊢
          all_goals omega
      · by_cases hc4 : command = 4
        · subst hc4
          unfold stepCmd at hstep
          norm_num at hstep
          rcases hs : s.stack with _ | ⟨a, _ | ⟨b, r⟩⟩
          · rw [hs] at hstep
            simp at hstep
          · rw [hs] at hstep
            simp at hstep
          · rw [hs] at hstep
            dsimp only at hstep
            rw [hs] at hle
            repeat' split at hstep
            all_goals try (simp only [reduceCtorEq] at hstep)
            all_goals obtain rfl := next_state_eq hstep
            all_goals dsimp only
            all_goals simp only [List.length_cons] at hle ⊢
            all_goals omega
        · by_cases hc5 : command = 5
          · subst hc5
            unfold stepCmd at hstep
            norm_num at hstep
            rcases hs : s.stack with _ | ⟨a, r⟩
            · rw [hs] at hstep
              simp at hstep
            · rw [hs] at hstep
              dsimp only at hstep
              rw [hs] at hle
              repeat' split at hstep
              all_goals try (simp only [reduceCtorEq] at hstep)
              all_goals obtain rfl := next_state_eq hstep
              all_goals dsimp only
              all_goals simp only [List.length_cons] at hle ⊢
              all_goals omega
          · unfold stepCmd at hstep
            rw [if_neg hc1, if_neg hc2, if_neg hc3, if_neg hc4, if_neg hc5] at hstep
            exact absurd hstep (by simp)

set_option maxHeartbeats 1000000 in
/-- Claim C8: on every state the main loop reaches, the stack holds at most
`MMR_STACK_SIZE` (257) entries, and opcodes 1 and 2 return `InvalidStack`
whenever the stack already holds `MMR_STACK_SIZE` entries (so no opcode ever
writes a slot at index `≥ MMR_STACK_SIZE`). -/
theorem claim_C8 (merge merge_peaks : List Nat → List Nat → List Nat)
    (mmr_size : Nat) (proofBuf leafBuf : List Nat) :
    (∀ s, reachableState merge merge_peaks mmr_size proofBuf leafBuf s →
      s.stack.length ≤ MMR_STACK_SIZE) ∧
    (∀ s, MMR_STACK_SIZE ≤ s.stack.length →
      stepCmd merge merge_peaks mmr_size proofBuf leafBuf 1 s =
        StepRes.ret ERROR_INVALID_STACK ∧
      stepCmd merge merge_peaks mmr_size proofBuf leafBuf 2 s =
        StepRes.ret ERROR_INVALID_STACK) := by
  constructor
  · intro s hreach
    induction hreach with
    | refl => simp [initState]
    | tail hab hbc ih =>
      obtain ⟨hidx, hstep⟩ := hbc
      exact stepCmd_stack_bound hstep ih
  · intro s h
    constructor
    · unfold stepCmd
      rw [if_pos rfl, if_pos h]
    · unfold stepCmd
      rw [if_neg (by decide : ¬ (2 : Nat) = 1), if_pos rfl, if_pos h]

/-- Claim C8 witness: a full stack of 257 entries makes opcode 1 fail with
`InvalidStack`. -/
theorem claim_C8_witness :
    (MMR_STACK_SIZE ≤
      (List.replicate 257 (⟨StackKind.node, [], 0, 0⟩ : StackValue)).length) ∧
    stepCmd mergeConcat mergeConcat 1 [] [] 1
      ⟨List.replicate 257 ⟨StackKind.node, [], 0, 0⟩, ⟨0, 0, true⟩, 0, false, 0, 0⟩ =
      StepRes.ret ERROR_INVALID_STACK :=
  ⟨by rw [List.length_replicate]; decide, ((claim_C8 mergeConcat mergeConcat 1 [] []).2
    ⟨List.replicate 257 ⟨StackKind.node, [], 0, 0⟩, ⟨0, 0, true⟩, 0, false, 0, 0⟩
    (by rw [List.length_replicate]; decide)).1⟩

/-- Claim C2 counterexample: the claimed invariant fails in both of its
conjuncts.  With `mmr_size = 4`, proof stream `[1, 1, 3, 5, 1, 5, 4, 2,
(node of length 0), 3]` and leaves `(0, [170])`, `(1, [187])`,
`(3, [204])`, the loop reaches a state whose single Node entry sits at
position 4 with height 1: `4 < 4` is false (opcode 3 never checks the
parent position against `mmr_size`), and `height_of_position(4) = 0 ≠ 1`
(opcode 4 resets the surviving peak slot's height to 0 while keeping its
position, and opcode 3 then computes the parent from those stale
coordinates, with the sibling-position check skipped because the other
entry is a Proof). -/
theorem claim_C2_counterexample :
    (¬ (∀ (merge merge_peaks : List Nat → List Nat → List Nat) (mmr_size : Nat)
        (proofBuf leafBuf : List Nat) (s : VState),
        0 < mmr_size →
        reachableState merge merge_peaks mmr_size proofBuf leafBuf s →
        ∀ e ∈ s.stack, e.t = StackKind.node →
          e.position < mmr_size ∧ e.height = pos_height_in_tree e.position)) ∧
    reachableState mergeConcat mergeConcat 4 pbC2b lbC2b sC2r9 ∧
    (⟨StackKind.node, [204, 170, 187], 4, 1⟩ : StackValue) ∈ sC2r9.stack ∧
    ¬ ((4 : Nat) < 4) ∧
    ¬ ((1 : Nat) = pos_height_in_tree 4) := by
  have st1 : loopStepRel mergeConcat mergeConcat 4 pbC2b lbC2b (initState 4) sC2r1 := by
    unfold loopStepRel
    exact ⟨by decide, by decide⟩
  have st2 : loopStepRel mergeConcat mergeConcat 4 pbC2b lbC2b sC2r1 sC2r2 := by
    unfold loopStepRel
    exact ⟨by decide, by decide⟩
  have st3 : loopStepRel mergeConcat mergeConcat 4 pbC2b lbC2b sC2r2 sC2r3 := by
    unfold loopStepRel
    exact ⟨by decide, by decide⟩
  have st4 : loopStepRel mergeConcat mergeConcat 4 pbC2b lbC2b sC2r3 sC2r4 := by
    unfold loopStepRel
    exact ⟨by decide, by decide⟩
  have st5 : loopStepRel mergeConcat mergeConcat 4 pbC2b lbC2b sC2r4 sC2r5 := by
    unfold loopStepRel
    exact ⟨by decide, by decide⟩
  have st6 : loopStepRel mergeConcat mergeConcat 4 pbC2b lbC2b sC2r5 sC2r6 := by
    unfold loopStepRel
    exact ⟨by decide, by decide⟩
  have st7 : loopStepRel mergeConcat mergeConcat 4 pbC2b lbC2b sC2r6 sC2r7 := by
    unfold loopStepRel
    exact ⟨by decide, by decide⟩
  have st8 : loopStepRel mergeConcat mergeConcat 4 pbC2b lbC2b sC2r7 sC2r8 := by
    unfold loopStepRel
    exact ⟨by decide, by decide⟩
  have st9 : loopStepRel mergeConcat mergeConcat 4 pbC2b lbC2b sC2r8 sC2r9 := by
    unfold loopStepRel
    exact ⟨by decide, by decide⟩
  have hreach : reachableState mergeConcat mergeConcat 4 pbC2b lbC2b sC2r9 :=
    Relation.ReflTransGen.head st1 (Relation.ReflTransGen.head st2
      (Relation.ReflTransGen.head st3 (Relation.ReflTransGen.head st4
        (Relation.ReflTransGen.head st5 (Relation.ReflTransGen.head st6
          (Relation.ReflTransGen.head st7 (Relation.ReflTransGen.head st8
            (Relation.ReflTransGen.head st9 Relation.ReflTransGen.refl))))))))
  refine ⟨?_, hreach, by decide, by decide, by decide⟩
  intro h
  have hv := h mergeConcat mergeConcat 4 pbC2b lbC2b sC2r9 (by decide) hreach
    ⟨StackKind.node, [204, 170, 187], 4, 1⟩ (by decide) rfl
  exact absurd hv.2 (by decide)

/-- Claim C2 amended: every stack entry pushed by opcode 1 has kind Node,
`position < mmr_size` and `height = 0 = height_of_position(position)`;
every entry produced by opcode 3 has kind Node and height one greater than
the anchor's height; the position of an opcode-3 entry, however, may equal
or exceed `mmr_size`. -/
theorem claim_C2_amended (merge merge_peaks : List Nat → List Nat → List Nat)
    (mmr_size : Nat) (proofBuf leafBuf : List Nat) (s s2 : VState) :
    (stepCmd merge merge_peaks mmr_size proofBuf leafBuf 1 s = StepRes.next s2 →
      ∃ e, s2.stack = e :: s.stack ∧ e.t = StackKind.node ∧
        e.position < mmr_size ∧ e.height = 0 ∧ pos_height_in_tree e.position = 0) ∧
    (∀ top under rest, s.stack = top :: under :: rest →
      stepCmd merge merge_peaks mmr_size proofBuf leafBuf 3 s = StepRes.next s2 →
      ∃ e, s2.stack = e :: rest ∧ e.t = StackKind.node ∧
        e.height = (if under.t = StackKind.proof then top.height else under.height) + 1) := by
  constructor
  · intro hstep
    unfold stepCmd at hstep
    norm_num at hstep
    split at hstep
    · simp at hstep
    · split at hstep
      · simp at hstep
      · rename_i hread
        split at hstep
        · simp at hstep
        · split at hstep
          · simp at hstep
          · split at hstep
            · simp at hstep
            · rename_i h1 h2 h3
              obtain rfl := next_state_eq hstep
              refine ⟨_, rfl, rfl, ?_, rfl, ?_⟩ <;> (dsimp only; omega)
  · intro top under rest hs hstep
    unfold stepCmd at hstep
    norm_num at hstep
    rw [hs] at hstep
    dsimp only at hstep
    repeat' split at hstep
    all_goals try (simp only [reduceCtorEq] at hstep)
    all_goals obtain rfl := next_state_eq hstep
    all_goals refine ⟨_, rfl, rfl, ?_⟩
    all_goals dsimp only
    all_goals simp_all

/-- Claim C2 witness: the first leaf push of the concrete run satisfies the
amended invariant. -/
theorem claim_C2_witness :
    (stepCmd mergeConcat mergeConcat 2 pbC2 lbC2 1 { initState 2 with proofIdx := 1 } =
      StepRes.next sC2b) ∧
    (∃ e, sC2b.stack = e :: ({ initState 2 with proofIdx := 1 } : VState).stack ∧
      e.t = StackKind.node ∧ e.position < 2 ∧ e.height = 0 ∧
      pos_height_in_tree e.position = 0) :=
  ⟨by decide,
    (claim_C2_amended mergeConcat mergeConcat 2 pbC2 lbC2
      { initState 2 with proofIdx := 1 } sC2b).1 (by decide)⟩

/-- Claim C6 counterexample: the claim requires the terminal probe to fail
specifically with `NoMoreLeaves`, but the C code only checks that the probe
does not succeed.  With one leaf record followed by a single dangling byte,
the probe fails with `LeafEOF` and verification still returns 0, refuting
both the NoMoreLeaves requirement and the "any extra data rejects" reading. -/
theorem claim_C6_counterexample :
    ¬ (∀ (merge merge_peaks : List Nat → List Nat → List Nat) (root : List Nat)
        (root_length mmr_size : Nat) (proofBuf leafBuf : List Nat) (s : VState),
        runLoopAux merge merge_peaks mmr_size proofBuf leafBuf (proofBuf.length + 1)
          (initState mmr_size) = LoopResult.done s →
        s.stack.length = 1 →
        default_leaf_iter_read leafBuf s.leafIdx ≠ Except.error ERROR_NO_MORE_LEAFS →
        mmr_verify merge merge_peaks root root_length mmr_size proofBuf leafBuf =
          ERROR_INVALID_PROOF) := by
  intro h
  have h82 := h mergeConcat mergeConcat [170] 1 1 [1, 5] lbC6 sC6
    (by decide) (by decide) (by decide)
  have h0 : mmr_verify mergeConcat mergeConcat [170] 1 1 [1, 5] lbC6 = 0 := by decide
  rw [h82] at h0
  exact absurd h0 (by decide)

/-- Claim C6 amended: after the loop ends with `NoMoreCommands` and the
final stack holds exactly one entry, verification returns `InvalidProof`
whenever the probe `read_leaf` succeeds (in particular whenever the leaf
stream still holds a complete further record); a probe failure with any of
`NoMoreLeaves`, `LeafEOF` or `NodeEOF` passes the check. -/
theorem claim_C6_amended (merge merge_peaks : List Nat → List Nat → List Nat)
    (root : List Nat) (root_length mmr_size : Nat) (proofBuf leafBuf : List Nat)
    (s : VState)
    (hdone : runLoopAux merge merge_peaks mmr_size proofBuf leafBuf
      (proofBuf.length + 1) (initState mmr_size) = LoopResult.done s)
    (hlen : s.stack.length = 1)
    (hprobe : exceptOk (default_leaf_iter_read leafBuf s.leafIdx) = true) :
    mmr_verify merge merge_peaks root root_length mmr_size proofBuf leafBuf =
      ERROR_INVALID_PROOF := by
  unfold mmr_verify
  by_cases hms : mmr_size = 0
  · rw [if_pos hms]
  · rw [if_neg hms, hdone]
    dsimp only
    rw [if_neg (by omega : ¬ s.stack.length ≠ 1)]
    obtain ⟨e, he⟩ := List.length_eq_one.mp hlen
    rw [he]
    dsimp only
    cases hr : default_leaf_iter_read leafBuf s.leafIdx with
    | ok v => rfl
    | error er =>
      rw [hr] at hprobe
      simp [exceptOk] at hprobe

/-- Claim C6 witness: the same one-leaf run with a complete second leaf
record left in the stream is rejected with `InvalidProof`. -/
theorem claim_C6_witness :
    (runLoopAux mergeConcat mergeConcat 1 [1, 5] lbC6b (([1, 5] : List Nat).length + 1)
        (initState 1) = LoopResult.done sC6 ∧
      sC6.stack.length = 1 ∧
      exceptOk (default_leaf_iter_read lbC6b sC6.leafIdx) = true) ∧
    mmr_verify mergeConcat mergeConcat [170] 1 1 [1, 5] lbC6b = ERROR_INVALID_PROOF :=
  ⟨⟨by decide, by decide, by decide⟩,
    claim_C6_amended mergeConcat mergeConcat [170] 1 1 [1, 5] lbC6b sC6
      (by decide) (by decide) (by decide)⟩

/-- Claim C1: `mmr_verify` returns 0 exactly when `mmr_size` is nonzero,
the main loop ends with `NoMoreCommands`, and all three terminal checks
pass: exactly one stack entry remains, a probe read on the leaf cursor does
not succeed, and the remaining entry's node has length equal to
`root_length` and bytes equal to `root` under byte comparison; in every
other case a nonzero error code is returned. -/
theorem claim_C1 (merge merge_peaks : List Nat → List Nat → List Nat)
    (root : List Nat) (root_length mmr_size : Nat) (proofBuf leafBuf : List Nat) :
    mmr_verify merge merge_peaks root root_length mmr_size proofBuf leafBuf = 0 ↔
      (0 < mmr_size ∧ ∃ s e,
        runLoopAux merge merge_peaks mmr_size proofBuf leafBuf (proofBuf.length + 1)
          (initState mmr_size) = LoopResult.done s ∧
        s.stack = [e] ∧
        exceptOk (default_leaf_iter_read leafBuf s.leafIdx) = false ∧
        root_length = e.node.length ∧
        root.take root_length = e.node.take root_length) := by
  unfold mmr_verify
  by_cases hms : mmr_size = 0
  · rw [if_pos hms]
    constructor
    · intro h
      exact absurd h (by decide)
    · rintro ⟨h0, -⟩
      omega
  · rw [if_neg hms]
    cases hrun : runLoopAux merge merge_peaks mmr_size proofBuf leafBuf
        (proofBuf.length + 1) (initState mmr_size) with
    | err c =>
      dsimp only
      constructor
      · intro h
        have := runLoopAux_err_code hrun
        omega
      · rintro ⟨-, s, e, hdone, -⟩
        exact absurd hdone (by simp)
    | done s =>
      dsimp only
      by_cases hlen : s.stack.length = 1
      · obtain ⟨e, he⟩ := List.length_eq_one.mp hlen
        rw [if_neg (by omega : ¬ s.stack.length ≠ 1), he]
        dsimp only
        cases hr : default_leaf_iter_read leafBuf s.leafIdx with
        | ok v =>
          dsimp only
          constructor
          · intro h
            exact absurd h (by decide)
          · rintro ⟨-, s2, e2, hdone, hstack2, hprobe, -⟩
            obtain rfl : s = s2 := (LoopResult.done.injEq _ _).mp hdone
            rw [hr] at hprobe
            simp [exceptOk] at hprobe
        | error er =>
          dsimp only
          by_cases hroot : root_length ≠ e.node.length ∨
              root.take root_length ≠ e.node.take root_length
          · rw [if_pos hroot]
            constructor
            · intro h
              exact absurd h (by decide)
            · rintro ⟨-, s2, e2, hdone, hstack2, hprobe, hl, hb⟩
              obtain rfl : s = s2 := (LoopResult.done.injEq _ _).mp hdone
              rw [he] at hstack2
              obtain rfl : e = e2 := by simpa using hstack2
              rcases hroot with hroot | hroot
              · exact (hroot hl).elim
              · exact (hroot hb).elim
          · rw [if_neg hroot]
            push_neg at hroot
            constructor
            · intro _
              exact ⟨by omega, s, e, rfl, he, by rw [hr]; rfl, hroot.1, hroot.2⟩
            · intro _
              rfl
      · rw [if_pos hlen]
        constructor
        · intro h
          exact absurd h (by decide)
        · rintro ⟨-, s2, e2, hdone, hstack2, -⟩
          obtain rfl : s = s2 := (LoopResult.done.injEq _ _).mp hdone
          rw [hstack2] at hlen
          simp at hlen

/-- Claim C1 witness: a complete one-leaf verification (`mmr_size = 1`,
proof `[1, 5]`) succeeds, and by the iff the loop ended with
`NoMoreCommands` with all three terminal checks passing. -/
theorem claim_C1_witness :
    mmr_verify mergeConcat mergeConcat [170] 1 1 [1, 5] lbC1 = 0 ∧
    (0 < 1 ∧ ∃ s e,
      runLoopAux mergeConcat mergeConcat 1 [1, 5] lbC1 (([1, 5] : List Nat).length + 1)
        (initState 1) = LoopResult.done s ∧
      s.stack = [e] ∧
      exceptOk (default_leaf_iter_read lbC1 s.leafIdx) = false ∧
      1 = e.node.length ∧
      List.take 1 [170] = e.node.take 1) :=
  ⟨by decide,
    (claim_C1 mergeConcat mergeConcat [170] 1 1 [1, 5] lbC1).mp (by decide)⟩
